import Mathlib

/-!
Verification of the abandon-call classification and reconciliation engine
(src/cipla_data_analysis_v2.py, class SimplifiedAbandonCallsAnalyzer).

Shallow embedding conventions:
* A parsed moment in time is a whole number of seconds on a linear axis
  (`Int`).  The external pandas parse of a raw Call Time cell is modelled by
  the field `call_time : Option Int` on a record: `some t` is a successful
  parse, `none` an unparseable or missing cell.  The wall clock
  `datetime.now()` of a run is a parameter `now : Int`.
* Records are structures with one field per spreadsheet column the code
  reads; fuzzy column lookup (`safe_get_column`) is modelled as direct field
  access, a missing cell being the default value the code supplies.
* Logging helpers (`log_data_quality_issue`, `log_validation_error`) and
  console printing only accumulate diagnostics and never change a result,
  so they are dropped.
* Python string splitting and stripping are modelled character-wise on
  `List Char`; the Python `str.isdigit` test is read as the ASCII digit
  test `Char.isDigit`.
* The phone-keyed dict of aggregates is an association list kept in
  insertion order (`aget` / `aset` read and write the first occurrence of a
  key and append absent keys, like a Python dict).
* `round(x, 1)` on the abandonment rate is modelled exactly over `ℚ` as
  `round (10 * x) / 10`.
-/

/-- Python list(filter(str.isdigit, s)) on ASCII text: keep digit chars. -/
def keep_digits (s : String) : List Char :=
  s.data.filter Char.isDigit

/-- Embedding of validate_phone_number (source lines 41-56): keep only the
digit characters of the raw cell, reject fewer than 10 or more than 15
digits, otherwise return the last 10 digits.  `none` is the Python `None`
(the empty-cell guard is subsumed: an empty string has no digits). -/
def validate_phone_number (s : String) : Option String :=
  if (keep_digits s).length < 10 then none
  else if (keep_digits s).length > 15 then none
  else some (String.mk ((keep_digits s).drop ((keep_digits s).length - 10)))

/-- Embedding of validate_timestamp (source lines 58-79): the external parse
result is the argument; a parsed moment is rejected when it falls outside
the window from 730 days before to 365 days after the run clock `now`. -/
def validate_timestamp (now : Int) (parsed : Option Int) : Option Int :=
  match parsed with
  | none => none
  | some t =>
    if t < now - 730 * 86400 ∨ now + 365 * 86400 < t then none
    else some t

/-- Calendar date of a moment, as a day index (floor division by 86400). -/
def ts_day (t : Int) : Int := Int.fdiv t 86400

/-- Clock hour of a moment, in 0..23. -/
def ts_hour (t : Int) : Int := Int.fdiv (Int.emod t 86400) 3600

/-- Embedding of convert_to_business_date (source lines 81-93): the previous
calendar date when the clock hour is before 6, else the same date
(6AM-to-6AM operating cycle). -/
def convert_to_business_date (t : Int) : Int :=
  if ts_hour t < 6 then ts_day t - 1 else ts_day t

/-- Python str.strip(): drop whitespace from both ends, character-wise. -/
def strip_ws (l : List Char) : List Char :=
  ((l.dropWhile Char.isWhitespace).reverse.dropWhile Char.isWhitespace).reverse

/-- Python str.split(sep=colon): split at every colon, keeping empty
fields; the empty string yields one empty field. -/
def split_colon : List Char → List (List Char)
  | [] => [[]]
  | c :: rest =>
    if c = ':' then [] :: split_colon rest
    else
      match split_colon rest with
      | [] => [[c]]
      | h :: t => (c :: h) :: t

/-- Python str.isdigit on ASCII text: nonempty and all digit characters. -/
def is_digit_str (l : List Char) : Bool :=
  !l.isEmpty && l.all Char.isDigit

/-- Numeric value of a digit string (Python int on a digit-only string). -/
def digits_to_nat (l : List Char) : Nat :=
  l.foldl (fun n c => n * 10 + (c.toNat - 48)) 0

/-- Embedding of time_to_seconds (source lines 95-114): strip the cell,
split at colons; with exactly three fields, read each digit-only field as a
number (any other field counts as 0), reject hours above 24 or
minutes/seconds above 59 by returning 0, else combine; any other field
count yields 0.  The early returns for empty and "00:00:00" cells agree
with the computed value 0. -/
def time_to_seconds (s : String) : Nat :=
  match split_colon (strip_ws s.data) with
  | [hs, ms, ss] =>
    let hours := if is_digit_str hs then digits_to_nat hs else 0
    let minutes := if is_digit_str ms then digits_to_nat ms else 0
    let seconds := if is_digit_str ss then digits_to_nat ss else 0
    if 24 < hours ∨ 59 < minutes ∨ 59 < seconds then 0
    else hours * 3600 + minutes * 60 + seconds
  | _ => 0

/-- The fixed allow-list of successful dispositions (source lines 17-19). -/
def successful_dispositions : List String :=
  ["Others", "MI", "PQC", "AE", "AE MI", "AE PQC", "Non-case", "Test",
   "AE PQC MI", "PQC MI", "Inbound Follow-up", "Translation AE"]

/-- One row of the inbound (ACD) log, with one field per column the code
reads.  `call_time` is the external parse result of the Call Time cell,
`call_time_str` the raw cell text carried for display fields. -/
structure InRecord where
  phone : String
  answered_hungup : String
  wait_time : String
  call_time : Option Int
  call_time_str : String
  queue_name : String
  username : String
  disposition : String
  user_talk_time : String
deriving DecidableEq

/-- One row of the outbound (CALL) log. -/
structure OutRecord where
  phone : String
  call_type : String
  system_disposition : String
  call_time : Option Int
  call_time_str : String
  disposition : String
  user_name : String
  user_talk_time : String
deriving DecidableEq

/-- One classified abandoned call appended to the abandon_calls list of a
phone (the dict built at source lines 199-208). -/
structure AbandonEvent where
  call_time : Int
  call_time_str : String
  business_date : Int
  wait_time_seconds : Nat
  wait_time_str : String
  queue_name : String
  username : String
  disposition : String
deriving DecidableEq

/-- The recovery_call dict recorded by find_recovery_calls (source lines
269-277 and 311-319). -/
structure RecoveryData where
  rtype : String
  time : Int
  time_str : String
  business_date : Int
  disposition : String
  username : String
  talk_time : String
deriving DecidableEq

/-- The per-phone value of abandon_phone_data (source lines 188-196), with
the recovery_call / recovery_status keys that find_recovery_calls may add
modelled as options that start out `none`. -/
structure PhoneData where
  phone : String
  original_phone : String
  first_abandon_time : Int
  first_abandon_time_str : String
  first_abandon_business_date : Int
  abandon_calls : List AbandonEvent
  total_abandon_calls : Nat
  recovery_call : Option RecoveryData
  recovery_status : Option String
deriving DecidableEq

/-- Read the first binding of a key in an association list (Python dict
read). -/
def aget {κ α : Type} [DecidableEq κ] : List (κ × α) → κ → Option α
  | [], _ => none
  | e :: m, k => if e.1 = k then some e.2 else aget m k

/-- Write a key in an association list: overwrite the first binding, or
append a new binding (Python dict write, preserving insertion order). -/
def aset {κ α : Type} [DecidableEq κ] : List (κ × α) → κ → α → List (κ × α)
  | [], k, v => [(k, v)]
  | e :: m, k, v => if e.1 = k then (k, v) :: m else e :: aset m k v

/-- The abandon-call dict entry built from one classified record. -/
def mkAbandonEvent (t : Int) (w : Nat) (r : InRecord) : AbandonEvent :=
  { call_time := t
    call_time_str := r.call_time_str
    business_date := convert_to_business_date t
    wait_time_seconds := w
    wait_time_str := r.wait_time
    queue_name := r.queue_name
    username := r.username
    disposition := r.disposition }

/-- The fresh aggregate created on the first abandon event of a phone
(the dict literal at source lines 188-196). -/
def freshAggregate (p : String) (t : Int) (r : InRecord) : PhoneData :=
  { phone := p
    original_phone := r.phone
    first_abandon_time := t
    first_abandon_time_str := r.call_time_str
    first_abandon_business_date := convert_to_business_date t
    abandon_calls := []
    total_abandon_calls := 0
    recovery_call := none
    recovery_status := none }

/-- The aggregate an abandon event lands in: the existing entry of the
phone, or a fresh one (source lines 187-196). -/
def baseAggregate (m : List (String × PhoneData)) (p : String) (t : Int)
    (r : InRecord) : PhoneData :=
  match aget m p with
  | some d => d
  | none => freshAggregate p t r

/-- The aggregate after appending the abandon event and bumping the count
(source lines 199-211). -/
def bumpedAggregate (m : List (String × PhoneData)) (p : String) (t : Int)
    (w : Nat) (r : InRecord) : PhoneData :=
  { baseAggregate m p t r with
    abandon_calls :=
      (baseAggregate m p t r).abandon_calls ++ [mkAbandonEvent t w r]
    total_abandon_calls := (baseAggregate m p t r).total_abandon_calls + 1 }

/-- The aggregate after also pulling the first-abandon fields back when
this event is earlier than the recorded first abandon (source lines
213-217). -/
def updatedAggregate (m : List (String × PhoneData)) (p : String) (t : Int)
    (w : Nat) (r : InRecord) : PhoneData :=
  if t < (bumpedAggregate m p t w r).first_abandon_time then
    { bumpedAggregate m p t w r with
      first_abandon_time := t
      first_abandon_time_str := r.call_time_str
      first_abandon_business_date := convert_to_business_date t }
  else bumpedAggregate m p t w r

/-- Body of the extraction loop of extract_abandon_phone_numbers (source
lines 161-222) for one record: skip the record unless phone and timestamp
validate; classify as abandon when the flag is HUNGUP and the wait exceeds
27 seconds; create or extend the aggregate of the phone. -/
def processAbandonRecord (now : Int) (m : List (String × PhoneData))
    (r : InRecord) : List (String × PhoneData) :=
  match validate_phone_number r.phone with
  | none => m
  | some p =>
    match validate_timestamp now r.call_time with
    | none => m
    | some t =>
      if r.answered_hungup = "HUNGUP" ∧ 27 < time_to_seconds r.wait_time then
        aset m p (updatedAggregate m p t (time_to_seconds r.wait_time) r)
      else m

/-- Embedding of extract_abandon_phone_numbers (source lines 150-229): fold
the extraction step over the inbound log in order, starting from the empty
dict. -/
def extract_abandon_phone_numbers (now : Int) (acd : List InRecord) :
    List (String × PhoneData) :=
  acd.foldl (processAbandonRecord now) []

/-- The inbound recovery_call dict (source lines 269-277). -/
def mkInRecovery (t : Int) (r : InRecord) : RecoveryData :=
  { rtype := "INBOUND"
    time := t
    time_str := r.call_time_str
    business_date := convert_to_business_date t
    disposition := r.disposition
    username := r.username
    talk_time := r.user_talk_time }

/-- The outbound recovery_call dict (source lines 311-319). -/
def mkOutRecovery (t : Int) (r : OutRecord) : RecoveryData :=
  { rtype := "OUTBOUND"
    time := t
    time_str := r.call_time_str
    business_date := convert_to_business_date t
    disposition := r.disposition
    username := r.user_name
    talk_time := r.user_talk_time }

/-- Body of the inbound recovery loop (source lines 256-290) for one
record: on a matching ANSWERED record whose time validates and lies
strictly after the first abandon, either finish with a successful recovery
(flag `true`, the Python break) when the disposition is in the allow-list,
or record a first tentative attempt. -/
def inStep (now : Int) (phone : String) (fa : Int) (d : PhoneData)
    (r : InRecord) : PhoneData × Bool :=
  if validate_phone_number r.phone = some phone ∧
      r.answered_hungup = "ANSWERED" then
    match validate_timestamp now r.call_time with
    | some t =>
      if fa < t then
        if r.disposition ∈ successful_dispositions then
          ({ d with recovery_call := some (mkInRecovery t r)
                    recovery_status := some "RECOVERED" }, true)
        else if d.recovery_call = none then
          ({ d with recovery_call := some (mkInRecovery t r)
                    recovery_status := some "ATTEMPTED" }, false)
        else (d, false)
      else (d, false)
    | none => (d, false)
  else (d, false)

/-- The inbound recovery loop: run `inStep` over the inbound log, stopping
at the first successful recovery. -/
def scanInbound (now : Int) (phone : String) (fa : Int) :
    PhoneData → List InRecord → PhoneData × Bool
  | d, [] => (d, false)
  | d, r :: rs =>
    let s := inStep now phone fa d r
    if s.2 then s else scanInbound now phone fa s.1 rs

/-- Body of the outbound recovery loop (source lines 294-332) for one
record: same shape as `inStep`, the candidate filter being a manual
outbound dial with system disposition CONNECTED. -/
def outStep (now : Int) (phone : String) (fa : Int) (d : PhoneData)
    (r : OutRecord) : PhoneData × Bool :=
  if validate_phone_number r.phone = some phone ∧
      r.call_type = "outbound.manual.dial" ∧
      r.system_disposition = "CONNECTED" then
    match validate_timestamp now r.call_time with
    | some t =>
      if fa < t then
        if r.disposition ∈ successful_dispositions then
          ({ d with recovery_call := some (mkOutRecovery t r)
                    recovery_status := some "RECOVERED" }, true)
        else if d.recovery_call = none then
          ({ d with recovery_call := some (mkOutRecovery t r)
                    recovery_status := some "ATTEMPTED" }, false)
        else (d, false)
      else (d, false)
    | none => (d, false)
  else (d, false)

/-- The outbound recovery loop, stopping at the first successful
recovery. -/
def scanOutbound (now : Int) (phone : String) (fa : Int) :
    PhoneData → List OutRecord → PhoneData × Bool
  | d, [] => (d, false)
  | d, r :: rs =>
    let s := outStep now phone fa d r
    if s.2 then s else scanOutbound now phone fa s.1 rs

/-- The two ordered scans of find_recovery_calls: the inbound log first;
the outbound log only without an inbound success and with a nonempty
outbound log (source lines 255-332). -/
def afterScans (now : Int) (acd : List InRecord) (calls : List OutRecord)
    (phone : String) (d : PhoneData) : PhoneData × Bool :=
  if (scanInbound now phone d.first_abandon_time d acd).2 = false ∧
      calls ≠ [] then
    scanOutbound now phone d.first_abandon_time
      (scanInbound now phone d.first_abandon_time d acd).1 calls
  else scanInbound now phone d.first_abandon_time d acd

/-- The per-phone body of find_recovery_calls (source lines 246-341): run
both ordered scans; when neither succeeded, set the final status
NEEDS_OUTBOUND (source lines 334-336). -/
def recoverPhone (now : Int) (acd : List InRecord) (calls : List OutRecord)
    (phone : String) (d : PhoneData) : PhoneData :=
  if (afterScans now acd calls phone d).2 then
    (afterScans now acd calls phone d).1
  else { (afterScans now acd calls phone d).1 with
    recovery_status := some "NEEDS_OUTBOUND" }

/-- Embedding of find_recovery_calls (source lines 231-344): update every
aggregate in place with the outcome of its recovery search. -/
def find_recovery_calls (now : Int) (apd : List (String × PhoneData))
    (acd : List InRecord) (calls : List OutRecord) :
    List (String × PhoneData) :=
  apd.map (fun e => (e.1, recoverPhone now acd calls e.1 e.2))

/-- Composition of the abandon-detection and recovery stages as performed
by create_excel_reports (source lines 620-621). -/
def pipeline_aggregates (now : Int) (acd : List InRecord)
    (calls : List OutRecord) : List (String × PhoneData) :=
  find_recovery_calls now (extract_abandon_phone_numbers now acd) acd calls

/-- Count of records with a parseable phone (the valid_calls counter of
source lines 353-362, also lines 394-406). -/
def count_valid_calls (acd : List InRecord) : Nat :=
  acd.countP (fun r => (validate_phone_number r.phone).isSome)

/-- A record counted as an abandon call by the global passes (valid phone,
HUNGUP, wait above 27 seconds; source lines 364-370 and 411-418). -/
def is_abandon_row (r : InRecord) : Bool :=
  (validate_phone_number r.phone).isSome && r.answered_hungup == "HUNGUP" &&
    decide (27 < time_to_seconds r.wait_time)

/-- Count of abandon calls over the inbound log. -/
def count_abandon_calls (acd : List InRecord) : Nat :=
  acd.countP is_abandon_row

/-- Sum of the abandon counts of the phones whose status is RECOVERED
(source lines 374-378). -/
def recovered_abandon_calls (apd : List (String × PhoneData)) : Nat :=
  apd.foldl
    (fun n e =>
      if e.2.recovery_status = some "RECOVERED" then
        n + e.2.total_abandon_calls
      else n) 0

/-- Rounding to one decimal place, modelled exactly over the rationals. -/
def roundRate (q : ℚ) : ℚ := ((round (q * 10) : ℤ) : ℚ) / 10

/-- Embedding of calculate_corrected_abandonment_rate (source lines
346-385): ((abandon calls - recovered abandon calls) / valid calls * 100)
rounded to one decimal, and 0 without any valid call. -/
def calculate_corrected_abandonment_rate (acd : List InRecord)
    (apd : List (String × PhoneData)) : ℚ :=
  if 0 < count_valid_calls acd then
    roundRate (((count_abandon_calls acd : ℚ) -
      (recovered_abandon_calls apd : ℚ)) / (count_valid_calls acd : ℚ) * 100)
  else 0

/-- The metric dict returned by generate_summary_metrics (source lines
430-440), one field per key. -/
structure SummaryMetrics where
  total_valid_calls : Nat
  total_answered : Nat
  total_hungup : Nat
  quick_drops : Nat
  abandon_calls : Nat
  unique_abandon_phones : Nat
  recovered_phones : Nat
  phones_needing_calls : Nat
  abandonment_rate : ℚ
deriving DecidableEq

/-- Embedding of generate_summary_metrics (source lines 387-440): the
global counters validate only the phone; answered and hungup split on the
flag; hungup records split into quick drops (wait at most 27) and abandon
calls; the phone figures come from the aggregate dict. -/
def generate_summary_metrics (acd : List InRecord)
    (apd : List (String × PhoneData)) : SummaryMetrics :=
  { total_valid_calls := count_valid_calls acd
    total_answered := acd.countP (fun r =>
      (validate_phone_number r.phone).isSome &&
        r.answered_hungup == "ANSWERED")
    total_hungup := acd.countP (fun r =>
      (validate_phone_number r.phone).isSome &&
        r.answered_hungup == "HUNGUP")
    quick_drops := acd.countP (fun r =>
      (validate_phone_number r.phone).isSome &&
        r.answered_hungup == "HUNGUP" &&
        decide (time_to_seconds r.wait_time ≤ 27))
    abandon_calls := count_abandon_calls acd
    unique_abandon_phones := apd.length
    recovered_phones :=
      (apd.filter (fun e => e.2.recovery_status == some "RECOVERED")).length
    phones_needing_calls := apd.length -
      (apd.filter (fun e => e.2.recovery_status == some "RECOVERED")).length
    abandonment_rate := calculate_corrected_abandonment_rate acd apd }

/-- The per-date bucket of the phones_by_date dict of
create_daily_breakdown_report (source lines 541-549). -/
structure DayPhones where
  phones : List String
  recovered : Nat
deriving DecidableEq

/-- One step of the phones_by_date grouping: append the phone to the bucket
of its first-abandon business date, counting it as recovered when its
status is RECOVERED. -/
def pbdStep (acc : List (Int × DayPhones)) (e : String × PhoneData) :
    List (Int × DayPhones) :=
  match aget acc e.2.first_abandon_business_date with
  | none =>
    aset acc e.2.first_abandon_business_date
      { phones := [e.1]
        recovered := if e.2.recovery_status = some "RECOVERED" then 1 else 0 }
  | some dp =>
    aset acc e.2.first_abandon_business_date
      { phones := dp.phones ++ [e.1]
        recovered := dp.recovered +
          (if e.2.recovery_status = some "RECOVERED" then 1 else 0) }

/-- Embedding of the phones_by_date grouping of
create_daily_breakdown_report (source lines 541-549). -/
def phones_by_date (apd : List (String × PhoneData)) :
    List (Int × DayPhones) :=
  apd.foldl pbdStep []

/-- The per-date phone figures of the daily breakdown (source lines
579-583): unique abandon phones, recovered phones, and phones needing
outbound calls for one business date, with the empty bucket as default. -/
def day_phone_figures (apd : List (String × PhoneData)) (dt : Int) :
    Nat × Nat × Nat :=
  let dp := (aget (phones_by_date apd) dt).getD { phones := [], recovered := 0 }
  (dp.phones.length, dp.recovered, dp.phones.length - dp.recovered)

/-- Builder for concrete inbound rows in witnesses: phone, flag, wait cell,
parse result of Call Time, disposition; display-only fields empty. -/
def sampleIn (ph flag wait : String) (t : Option Int) (disp : String) :
    InRecord :=
  { phone := ph
    answered_hungup := flag
    wait_time := wait
    call_time := t
    call_time_str := ""
    queue_name := ""
    username := ""
    disposition := disp
    user_talk_time := "" }

/-- Builder for concrete outbound rows in witnesses. -/
def sampleOut (ph ct sd : String) (t : Option Int) (disp : String) :
    OutRecord :=
  { phone := ph
    call_type := ct
    system_disposition := sd
    call_time := t
    call_time_str := ""
    disposition := disp
    user_name := ""
    user_talk_time := "" }

/-- A successful inbound recovery candidate for a phone with first abandon
at `fa`: matching normalized phone, flag ANSWERED, validated call time
strictly after `fa`, and a disposition in the allow-list. -/
def isInSuccess (now : Int) (phone : String) (fa : Int) (r : InRecord) :
    Bool :=
  decide (validate_phone_number r.phone = some phone) &&
    decide (r.answered_hungup = "ANSWERED") &&
    (match validate_timestamp now r.call_time with
      | some t => decide (fa < t) &&
          decide (r.disposition ∈ successful_dispositions)
      | none => false)

/-- A successful outbound recovery candidate: matching normalized phone,
manual outbound dial, system disposition CONNECTED, validated call time
strictly after `fa`, and a disposition in the allow-list. -/
def isOutSuccess (now : Int) (phone : String) (fa : Int) (r : OutRecord) :
    Bool :=
  decide (validate_phone_number r.phone = some phone) &&
    decide (r.call_type = "outbound.manual.dial") &&
    decide (r.system_disposition = "CONNECTED") &&
    (match validate_timestamp now r.call_time with
      | some t => decide (fa < t) &&
          decide (r.disposition ∈ successful_dispositions)
      | none => false)

/-- The validated call time of an inbound record (0 when absent). -/
def parsed_recovery_time (now : Int) (r : InRecord) : Int :=
  (validate_timestamp now r.call_time).getD 0

/-- The validated call time of an outbound record (0 when absent). -/
def parsed_out_recovery_time (now : Int) (r : OutRecord) : Int :=
  (validate_timestamp now r.call_time).getD 0

/-- A record counted by the abandon-detection stage: valid phone, valid
timestamp, HUNGUP, wait above 27 seconds. -/
def is_counted_abandon (now : Int) (r : InRecord) : Bool :=
  (validate_phone_number r.phone).isSome &&
    (validate_timestamp now r.call_time).isSome &&
    r.answered_hungup == "HUNGUP" &&
    decide (27 < time_to_seconds r.wait_time)

/-- Sum of the abandon counts over all aggregates of a dict. -/
def sum_totals : List (String × PhoneData) → Nat
  | [] => 0
  | e :: m => e.2.total_abandon_calls + sum_totals m

/-- Fallback aggregate used only to project optional lookup results in
concrete evaluations. -/
def phone_default : PhoneData :=
  { phone := ""
    original_phone := ""
    first_abandon_time := 0
    first_abandon_time_str := ""
    first_abandon_business_date := 0
    abandon_calls := []
    total_abandon_calls := 0
    recovery_call := none
    recovery_status := none }

/-- Invariant of an aggregate after abandon detection: the first-abandon
timestamp is one of its event times, bounds all of them from below, and
carries the matching business date. -/
def FirstAbandonInv (d : PhoneData) : Prop :=
  d.first_abandon_time ∈ d.abandon_calls.map AbandonEvent.call_time ∧
  (∀ u ∈ d.abandon_calls.map AbandonEvent.call_time,
    d.first_abandon_time ≤ u) ∧
  d.first_abandon_business_date =
    convert_to_business_date d.first_abandon_time

/-- The entries of an aggregate dict whose first-abandon business date is
`dt` (the cohort the daily breakdown attributes to that date). -/
def bucketOf (apd : List (String × PhoneData)) (dt : Int) :
    List (String × PhoneData) :=
  apd.filter (fun e => decide (e.2.first_abandon_business_date = dt))

/-- Closed form of one phones_by_date bucket given an already-accumulated
bucket and the remaining cohort entries; used to characterize the
grouping fold. -/
def combineB : Option DayPhones → List (String × PhoneData) → Option DayPhones
  | none, b =>
    if b.isEmpty then none
    else
      some { phones := b.map Prod.fst
             recovered := b.countP
               (fun e => decide (e.2.recovery_status = some "RECOVERED")) }
  | some dp, b =>
    some { phones := dp.phones ++ b.map Prod.fst
           recovered := dp.recovered + b.countP
             (fun e => decide (e.2.recovery_status = some "RECOVERED")) }

/-- A two-day repeat abandoner: the same phone abandons on two business
days, the later record first in the log. -/
def c9_log : List InRecord :=
  [sampleIn "5551234567" "HUNGUP" "00:00:45" (some 999172800) "",
   sampleIn "5551234567" "HUNGUP" "00:00:45" (some 999000000) ""]

/-- The pipeline aggregates of the two-day repeat abandoner log. -/
def c9_apd : List (String × PhoneData) :=
  pipeline_aggregates 1000000000 c9_log []

/-- The aggregate of the repeat abandoner. -/
def c9_entry : PhoneData := (aget c9_apd "5551234567").getD phone_default

/-- The daily bucket of the first-abandon business date of the repeat
abandoner. -/
def c9_bucket : DayPhones :=
  (aget (phones_by_date c9_apd) c9_entry.first_abandon_business_date).getD
    { phones := [], recovered := 0 }

/-! ### Association-list lemmas -/

theorem aget_aset_self {κ α : Type} [DecidableEq κ]
    (m : List (κ × α)) (k : κ) (v : α) : aget (aset m k v) k = some v := by
  induction m with
  | nil => simp [aget, aset]
  | cons e m ih =>
    by_cases h : e.1 = k <;> simp [aget, aset, h, ih]

theorem aget_aset_ne {κ α : Type} [DecidableEq κ]
    (m : List (κ × α)) (k j : κ) (v : α) (h : k ≠ j) :
    aget (aset m k v) j = aget m j := by
  induction m with
  | nil => simp [aget, aset, h]
  | cons e m ih =>
    by_cases he : e.1 = k
    · have hej : ¬ e.1 = j := by rw [he]; exact h
      simp [aget, aset, he, h, hej]
    · simp [aget, aset, he, ih]

theorem aget_mem {κ α : Type} [DecidableEq κ]
    (m : List (κ × α)) (k : κ) (v : α) (h : aget m k = some v) :
    (k, v) ∈ m := by
  induction m with
  | nil => simp [aget] at h
  | cons e m ih =>
    obtain ⟨a, b⟩ := e
    by_cases he : a = k
    · simp [aget, he] at h
      subst he
      subst h
      exact List.mem_cons_self _ _
    · simp [aget, he] at h
      exact List.mem_cons_of_mem _ (ih h)

theorem aget_none_not_mem_keys {κ α : Type} [DecidableEq κ]
    (m : List (κ × α)) (k : κ) (h : aget m k = none) :
    k ∉ m.map Prod.fst := by
  induction m with
  | nil => simp
  | cons e m ih =>
    by_cases he : e.1 = k
    · simp [aget, he] at h
    · simp [aget, he] at h
      simp [ih h, he]
      exact fun hek => he hek.symm

theorem keys_aset_of_some {κ α : Type} [DecidableEq κ]
    (m : List (κ × α)) (k : κ) (v w : α) (h : aget m k = some w) :
    (aset m k v).map Prod.fst = m.map Prod.fst := by
  induction m with
  | nil => simp [aget] at h
  | cons e m ih =>
    by_cases he : e.1 = k
    · simp [aset, he]
    · simp [aget, he] at h
      simp [aset, he, ih h]

theorem keys_aset_of_none {κ α : Type} [DecidableEq κ]
    (m : List (κ × α)) (k : κ) (v : α) (h : aget m k = none) :
    (aset m k v).map Prod.fst = m.map Prod.fst ++ [k] := by
  induction m with
  | nil => simp [aset]
  | cons e m ih =>
    by_cases he : e.1 = k
    · simp [aget, he] at h
    · simp [aget, he] at h
      simp [aset, he, ih h]

/-! ### Equation lemmas for the extraction step -/

theorem process_skip_phone (now : Int) (m : List (String × PhoneData))
    (r : InRecord) (hvp : validate_phone_number r.phone = none) :
    processAbandonRecord now m r = m := by
  simp [processAbandonRecord, hvp]

theorem process_skip_ts (now : Int) (m : List (String × PhoneData))
    (r : InRecord) (p : String)
    (hvp : validate_phone_number r.phone = some p)
    (hvt : validate_timestamp now r.call_time = none) :
    processAbandonRecord now m r = m := by
  simp [processAbandonRecord, hvp, hvt]

theorem process_not_abandon (now : Int) (m : List (String × PhoneData))
    (r : InRecord) (p : String) (t : Int)
    (hvp : validate_phone_number r.phone = some p)
    (hvt : validate_timestamp now r.call_time = some t)
    (hcond : ¬ (r.answered_hungup = "HUNGUP" ∧
      27 < time_to_seconds r.wait_time)) :
    processAbandonRecord now m r = m := by
  simp only [processAbandonRecord, hvp, hvt]
  rw [if_neg hcond]

theorem process_abandon (now : Int) (m : List (String × PhoneData))
    (r : InRecord) (p : String) (t : Int)
    (hvp : validate_phone_number r.phone = some p)
    (hvt : validate_timestamp now r.call_time = some t)
    (hcond : r.answered_hungup = "HUNGUP" ∧
      27 < time_to_seconds r.wait_time) :
    processAbandonRecord now m r =
      aset m p (updatedAggregate m p t (time_to_seconds r.wait_time) r) := by
  simp only [processAbandonRecord, hvp, hvt]
  rw [if_pos hcond]

theorem updatedAggregate_calls (m : List (String × PhoneData)) (p : String)
    (t : Int) (w : Nat) (r : InRecord) :
    (updatedAggregate m p t w r).abandon_calls =
      (baseAggregate m p t r).abandon_calls ++ [mkAbandonEvent t w r] := by
  unfold updatedAggregate
  split <;> rfl

theorem updatedAggregate_total (m : List (String × PhoneData)) (p : String)
    (t : Int) (w : Nat) (r : InRecord) :
    (updatedAggregate m p t w r).total_abandon_calls =
      (baseAggregate m p t r).total_abandon_calls + 1 := by
  unfold updatedAggregate
  split <;> rfl

/-! ### C7: phone normalization -/

/-- C7: normalization keeps only digit characters and rejects a raw phone
with fewer than 10 or more than 15 digits; otherwise it returns exactly the
last 10 digits, so any phone string whose digits are a prefix of at most 5
characters followed by the 10 digits D normalizes to D regardless of the
leading formatting. -/
theorem C7_phone_normalization :
    (∀ s : String, (keep_digits s).length < 10 →
      validate_phone_number s = none) ∧
    (∀ s : String, 15 < (keep_digits s).length →
      validate_phone_number s = none) ∧
    (∀ (s : String) (pre D : List Char),
      keep_digits s = pre ++ D → D.length = 10 → pre.length ≤ 5 →
      validate_phone_number s = some (String.mk D)) := by
  refine ⟨fun s h => ?_, fun s h => ?_, fun s pre D hd hD hpre => ?_⟩
  · simp [validate_phone_number, h]
  · have h10 : ¬ (keep_digits s).length < 10 := by omega
    simp [validate_phone_number, h10, h]
  · have hlen : (pre ++ D).length - 10 = pre.length := by
      rw [List.length_append, hD]; omega
    have h10 : ¬ (keep_digits s).length < 10 := by
      rw [hd, List.length_append, hD]; omega
    have h15 : ¬ (keep_digits s).length > 15 := by
      rw [hd, List.length_append, hD]; omega
    simp only [validate_phone_number, h10, if_false, h15, Option.some.injEq]
    rw [hd, hlen, List.drop_left]

/-- C7 witness: the example of the specification, a noisy North-American
format whose last 10 digits survive. -/
theorem C7_phone_normalization_witness :
    validate_phone_number "+1 (555) 123-4567" =
      some (String.mk "5551234567".data) :=
  C7_phone_normalization.2.2 "+1 (555) 123-4567" ['1'] "5551234567".data
    (by decide) (by decide) (by decide)

/-! ### C10: duration conversion -/

/-- C10: duration conversion is total (a natural number for every input);
an input that does not split into exactly three colon-separated fields
yields 0; a field that is not a pure digit string is silently read as 0
(so "1:xx:05" yields 3605 seconds), the range check firing only on the
digit fields; a digit hours field above 24 yields 0. -/
theorem C10_duration_conversion :
    (∀ s : String, (split_colon (strip_ws s.data)).length ≠ 3 →
      time_to_seconds s = 0) ∧
    (∀ (s : String) (a b c : List Char),
      split_colon (strip_ws s.data) = [a, b, c] → is_digit_str b = false →
      is_digit_str a = true → is_digit_str c = true →
      digits_to_nat a ≤ 24 → digits_to_nat c ≤ 59 →
      time_to_seconds s = digits_to_nat a * 3600 + digits_to_nat c) ∧
    (∀ (s : String) (a b c : List Char),
      split_colon (strip_ws s.data) = [a, b, c] → is_digit_str a = true →
      24 < digits_to_nat a → time_to_seconds s = 0) ∧
    (∀ s : String, 0 ≤ time_to_seconds s) := by
  refine ⟨fun s h => ?_, fun s a b c hsp hb ha hc h24 h59 => ?_,
    fun s a b c hsp ha h24 => ?_, fun s => Nat.zero_le _⟩
  · unfold time_to_seconds
    split
    · next hs ms ss heq => simp [heq] at h
    · rfl
  · unfold time_to_seconds
    rw [hsp]
    simp only [ha, hb, hc, if_true, Bool.false_eq_true, if_false]
    rw [if_neg (by omega)]
    omega
  · unfold time_to_seconds
    rw [hsp]
    simp only [ha, if_true]
    rw [if_pos (Or.inl h24)]

/-- C10 witness: a malformed input, the mixed-field example, and an
out-of-range hours field, each evaluated concretely. -/
theorem C10_duration_conversion_witness :
    time_to_seconds "ab" = 0 ∧
    time_to_seconds "1:xx:05" =
      digits_to_nat "1".data * 3600 + digits_to_nat "05".data ∧
    time_to_seconds "99:00:00" = 0 :=
  ⟨C10_duration_conversion.1 "ab" (by decide),
   C10_duration_conversion.2.1 "1:xx:05" "1".data "xx".data "05".data
     (by decide) (by decide) (by decide) (by decide) (by decide) (by decide),
   C10_duration_conversion.2.2.1 "99:00:00" "99".data "00".data "00".data
     (by decide) (by decide) (by decide)⟩

/-! ### C6: out-of-window timestamps -/

/-- C6 counterexample: a record whose timestamp parses to 3 years before
the run clock is rejected as an invalid timestamp, yet — contrary to the
claim that it is excluded from all counts — it still counts in valid_calls
and in the answered tally of the summary metrics, whose global pass
validates only the phone. -/
theorem C6_out_of_window_cex :
    validate_timestamp 1000000000 (some 905392000) = none ∧
    (generate_summary_metrics
      [sampleIn "1234567890" "ANSWERED" "" (some 905392000) ""]
      []).total_valid_calls = 1 ∧
    (generate_summary_metrics
      [sampleIn "1234567890" "ANSWERED" "" (some 905392000) ""]
      []).total_answered = 1 :=
  ⟨by decide, by decide, by decide⟩

/-- C6 (amended): a record whose parsed timestamp lies outside the window
[now − 730 days, now + 365 days] is rejected by validate_timestamp and
never enters any phone aggregate; however the summary-metric pass validates
only the phone, so when the phone normalizes the record still counts in
valid_calls. -/
theorem C6_out_of_window (now t : Int) (r : InRecord)
    (m : List (String × PhoneData)) (rs : List InRecord)
    (apd : List (String × PhoneData))
    (hct : r.call_time = some t)
    (hout : t < now - 730 * 86400 ∨ now + 365 * 86400 < t) :
    validate_timestamp now r.call_time = none ∧
    processAbandonRecord now m r = m ∧
    ((validate_phone_number r.phone).isSome = true →
      (generate_summary_metrics (rs ++ [r]) apd).total_valid_calls =
        (generate_summary_metrics rs apd).total_valid_calls + 1) := by
  have hv : validate_timestamp now r.call_time = none := by
    rw [hct]
    simp only [validate_timestamp]
    rw [if_pos hout]
  refine ⟨hv, ?_, ?_⟩
  · cases hp : validate_phone_number r.phone with
    | none => simp [processAbandonRecord, hp]
    | some p => simp [processAbandonRecord, hp, hv]
  · intro hps
    simp [generate_summary_metrics, count_valid_calls, List.countP_append,
      List.countP_cons, hps]

/-- C6 witness: the amended statement evaluated on a record 3 years in the
past with a valid 10-digit phone. -/
theorem C6_out_of_window_witness :
    validate_timestamp 1000000000
      (sampleIn "1234567890" "ANSWERED" "" (some 905392000) "").call_time =
      none ∧
    processAbandonRecord 1000000000 []
      (sampleIn "1234567890" "ANSWERED" "" (some 905392000) "") = [] ∧
    (generate_summary_metrics
      [sampleIn "1234567890" "ANSWERED" "" (some 905392000) ""]
      []).total_valid_calls =
      (generate_summary_metrics [] []).total_valid_calls + 1 :=
  ⟨(C6_out_of_window 1000000000 905392000 _ [] [] [] rfl
      (by decide)).1,
   (C6_out_of_window 1000000000 905392000 _ [] [] [] rfl
      (by decide)).2.1,
   (C6_out_of_window 1000000000 905392000 _ [] [] [] rfl
      (by decide)).2.2 (by decide)⟩

/-! ### C4: answered + hungup = valid -/

/-- C4 counterexample: a record with a valid phone whose Answered/Hungup
cell is neither ANSWERED nor HUNGUP counts in valid_calls but in neither
flag tally, so answered + hungup differs from valid_calls on this log. -/
theorem C4_partition_cex :
    ¬ ((generate_summary_metrics
          [sampleIn "1234567890" "" "" (some 999000000) ""] []).total_answered +
        (generate_summary_metrics
          [sampleIn "1234567890" "" "" (some 999000000) ""] []).total_hungup =
        (generate_summary_metrics
          [sampleIn "1234567890" "" "" (some 999000000) ""]
          []).total_valid_calls) := by
  decide

/-- C4 (amended): provided every record with a normalizable phone carries
the flag ANSWERED or HUNGUP, the summary metrics satisfy
answered + hungup = valid_calls, where valid_calls counts every record
whose phone normalizes. -/
theorem C4_partition (acd : List InRecord) (apd : List (String × PhoneData))
    (h : ∀ r ∈ acd, (validate_phone_number r.phone).isSome = true →
      r.answered_hungup = "ANSWERED" ∨ r.answered_hungup = "HUNGUP") :
    (generate_summary_metrics acd apd).total_answered +
      (generate_summary_metrics acd apd).total_hungup =
      (generate_summary_metrics acd apd).total_valid_calls := by
  simp only [generate_summary_metrics, count_valid_calls]
  induction acd with
  | nil => rfl
  | cons r rs ih =>
    have hr := h r (List.mem_cons_self _ _)
    have ihr := ih (fun x hx => h x (List.mem_cons_of_mem _ hx))
    by_cases hv : (validate_phone_number r.phone).isSome = true
    · rcases hr hv with hA | hH
      · have e1 : ((validate_phone_number r.phone).isSome &&
            r.answered_hungup == "ANSWERED") = true := by
          rw [hv, hA]; decide
        have e2 : ((validate_phone_number r.phone).isSome &&
            r.answered_hungup == "HUNGUP") = false := by
          rw [hv, hA]; decide
        simp only [List.countP_cons, e1, e2, eq_self_iff_true, if_true,
          Bool.false_eq_true, if_false]
        simp only [hv, eq_self_iff_true, if_true]
        omega
      · have e1 : ((validate_phone_number r.phone).isSome &&
            r.answered_hungup == "ANSWERED") = false := by
          rw [hv, hH]; decide
        have e2 : ((validate_phone_number r.phone).isSome &&
            r.answered_hungup == "HUNGUP") = true := by
          rw [hv, hH]; decide
        simp only [List.countP_cons, e1, e2, eq_self_iff_true, if_true,
          Bool.false_eq_true, if_false]
        simp only [hv, eq_self_iff_true, if_true]
        omega
    · have hv2 : (validate_phone_number r.phone).isSome = false := by
        simp only [Bool.not_eq_true] at hv
        exact hv
      simp only [List.countP_cons, hv2, Bool.false_and,
        Bool.false_eq_true, if_false]
      omega

/-- C4 witness: the amended identity on a log with an answered record, a
hungup record and an invalid-phone record. -/
theorem C4_partition_witness :
    (generate_summary_metrics
      [sampleIn "1234567890" "ANSWERED" "" (some 999000000) "",
       sampleIn "1234567890" "HUNGUP" "00:00:45" (some 999000000) "",
       sampleIn "123" "ANSWERED" "" (some 999000000) ""] []).total_answered +
      (generate_summary_metrics
        [sampleIn "1234567890" "ANSWERED" "" (some 999000000) "",
         sampleIn "1234567890" "HUNGUP" "00:00:45" (some 999000000) "",
         sampleIn "123" "ANSWERED" "" (some 999000000) ""] []).total_hungup =
      (generate_summary_metrics
        [sampleIn "1234567890" "ANSWERED" "" (some 999000000) "",
         sampleIn "1234567890" "HUNGUP" "00:00:45" (some 999000000) "",
         sampleIn "123" "ANSWERED" "" (some 999000000) ""]
        []).total_valid_calls :=
  C4_partition _ [] (by decide)

/-! ### C3: abandon classification -/

/-- C3: a record with valid phone and valid timestamp enters the phone
aggregate (as one appended AbandonEvent) exactly when its flag is HUNGUP
and its wait exceeds 27 seconds; otherwise the aggregate dict is untouched;
and a HUNGUP record with wait at most 27 seconds counts as one quick drop
in the summary metrics. -/
theorem C3_abandon_classification (now : Int) (m : List (String × PhoneData))
    (r : InRecord) (p : String) (t : Int)
    (hp : validate_phone_number r.phone = some p)
    (ht : validate_timestamp now r.call_time = some t) :
    ((r.answered_hungup = "HUNGUP" ∧ 27 < time_to_seconds r.wait_time) →
      ∃ d, aget (processAbandonRecord now m r) p = some d ∧
        d.abandon_calls =
          (match aget m p with
            | some d0 => d0.abandon_calls
            | none => []) ++
            [mkAbandonEvent t (time_to_seconds r.wait_time) r]) ∧
    (¬ (r.answered_hungup = "HUNGUP" ∧ 27 < time_to_seconds r.wait_time) →
      processAbandonRecord now m r = m) ∧
    ((r.answered_hungup = "HUNGUP" ∧ time_to_seconds r.wait_time ≤ 27) →
      ∀ (rs : List InRecord) (apd : List (String × PhoneData)),
        (generate_summary_metrics (rs ++ [r]) apd).quick_drops =
          (generate_summary_metrics rs apd).quick_drops + 1) := by
  refine ⟨fun hcond => ?_, fun hcond => ?_, fun hcond rs apd => ?_⟩
  · rw [process_abandon now m r p t hp ht hcond]
    refine ⟨_, aget_aset_self _ _ _, ?_⟩
    rw [updatedAggregate_calls]
    unfold baseAggregate
    cases hd0 : aget m p <;> rfl
  · exact process_not_abandon now m r p t hp ht hcond
  · have hps : (validate_phone_number r.phone).isSome = true := by
      rw [hp]; rfl
    have e : ((validate_phone_number r.phone).isSome &&
        r.answered_hungup == "HUNGUP" &&
        decide (time_to_seconds r.wait_time ≤ 27)) = true := by
      rw [hps, hcond.1]
      simp [hcond.2]
    simp only [generate_summary_metrics, List.countP_append,
      List.countP_cons, List.countP_nil, e, eq_self_iff_true, if_true]

/-- C3 witness: a 20-second HUNGUP quick drop with valid phone and
timestamp touches no aggregate and counts as one quick drop. -/
theorem C3_abandon_classification_witness :
    processAbandonRecord 1000000000 []
      (sampleIn "1234567890" "HUNGUP" "00:00:20" (some 999000000) "") = [] ∧
    (generate_summary_metrics
      [sampleIn "1234567890" "HUNGUP" "00:00:20" (some 999000000) ""]
      []).quick_drops =
      (generate_summary_metrics [] []).quick_drops + 1 :=
  ⟨(C3_abandon_classification 1000000000 []
      (sampleIn "1234567890" "HUNGUP" "00:00:20" (some 999000000) "")
      "1234567890" 999000000 (by decide) (by decide)).2.1 (by decide),
   (C3_abandon_classification 1000000000 []
      (sampleIn "1234567890" "HUNGUP" "00:00:20" (some 999000000) "")
      "1234567890" 999000000 (by decide) (by decide)).2.2 (by decide) [] []⟩

/-! ### C8: first abandon is the minimum -/

theorem updatedAggregate_inv (m : List (String × PhoneData)) (p : String)
    (t : Int) (w : Nat) (r : InRecord)
    (h : ∀ d0, aget m p = some d0 → FirstAbandonInv d0) :
    FirstAbandonInv (updatedAggregate m p t w r) := by
  have hbase : FirstAbandonInv (baseAggregate m p t r) ∨
      baseAggregate m p t r = freshAggregate p t r := by
    unfold baseAggregate
    cases hd0 : aget m p with
    | none => exact Or.inr rfl
    | some d0 => exact Or.inl (h d0 hd0)
  unfold updatedAggregate
  by_cases hlt : t < (bumpedAggregate m p t w r).first_abandon_time
  · rw [if_pos hlt]
    have hlt2 : t < (baseAggregate m p t r).first_abandon_time := hlt
    refine ⟨?_, ?_, rfl⟩
    · show t ∈ (bumpedAggregate m p t w r).abandon_calls.map
        AbandonEvent.call_time
      show t ∈ ((baseAggregate m p t r).abandon_calls ++
        [mkAbandonEvent t w r]).map AbandonEvent.call_time
      simp [mkAbandonEvent]
    · intro u hu
      show t ≤ u
      have hu2 : u ∈ ((baseAggregate m p t r).abandon_calls ++
          [mkAbandonEvent t w r]).map AbandonEvent.call_time := hu
      simp only [List.map_append, List.mem_append, List.map_cons,
        List.map_nil, List.mem_singleton, mkAbandonEvent] at hu2
      rcases hu2 with hu2 | hu2
      · rcases hbase with hinv | hfresh
        · exact le_of_lt (lt_of_lt_of_le hlt2 (hinv.2.1 u hu2))
        · rw [hfresh] at hu2
          simp [freshAggregate] at hu2
      · omega
  · rw [if_neg hlt]
    have hge : (baseAggregate m p t r).first_abandon_time ≤ t := by
      exact le_of_not_lt hlt
    rcases hbase with hinv | hfresh
    · refine ⟨?_, ?_, hinv.2.2⟩
      · show (baseAggregate m p t r).first_abandon_time ∈
          ((baseAggregate m p t r).abandon_calls ++
            [mkAbandonEvent t w r]).map AbandonEvent.call_time
        simp only [List.map_append, List.mem_append]
        exact Or.inl hinv.1
      · intro u hu
        have hu2 : u ∈ ((baseAggregate m p t r).abandon_calls ++
            [mkAbandonEvent t w r]).map AbandonEvent.call_time := hu
        simp only [List.map_append, List.mem_append, List.map_cons,
          List.map_nil, List.mem_singleton, mkAbandonEvent] at hu2
        show (baseAggregate m p t r).first_abandon_time ≤ u
        rcases hu2 with hu2 | hu2
        · exact hinv.2.1 u hu2
        · omega
    · have hgoal : (baseAggregate m p t r).first_abandon_time ∈
          ((baseAggregate m p t r).abandon_calls ++
            [mkAbandonEvent t w r]).map AbandonEvent.call_time ∧
          (∀ u ∈ ((baseAggregate m p t r).abandon_calls ++
              [mkAbandonEvent t w r]).map AbandonEvent.call_time,
            (baseAggregate m p t r).first_abandon_time ≤ u) ∧
          (baseAggregate m p t r).first_abandon_business_date =
            convert_to_business_date
              (baseAggregate m p t r).first_abandon_time := by
        rw [hfresh]
        simp [freshAggregate, mkAbandonEvent]
      exact hgoal

theorem processAbandon_inv (now : Int) (m : List (String × PhoneData))
    (r : InRecord)
    (h : ∀ q e, aget m q = some e → FirstAbandonInv e) :
    ∀ q e, aget (processAbandonRecord now m r) q = some e →
      FirstAbandonInv e := by
  intro q e he
  rcases hvp : validate_phone_number r.phone with _ | p
  · rw [process_skip_phone now m r hvp] at he
    exact h q e he
  rcases hvt : validate_timestamp now r.call_time with _ | t
  · rw [process_skip_ts now m r p hvp hvt] at he
    exact h q e he
  by_cases hcond : r.answered_hungup = "HUNGUP" ∧
      27 < time_to_seconds r.wait_time
  · rw [process_abandon now m r p t hvp hvt hcond] at he
    by_cases hq : p = q
    · subst hq
      rw [aget_aset_self] at he
      injection he with he
      subst he
      exact updatedAggregate_inv m p t _ r (fun d0 hd0 => h p d0 hd0)
    · rw [aget_aset_ne _ _ _ _ hq] at he
      exact h q e he
  · rw [process_not_abandon now m r p t hvp hvt hcond] at he
    exact h q e he

theorem extract_inv_aux (now : Int) :
    ∀ (acd : List InRecord) (m : List (String × PhoneData)),
      (∀ q e, aget m q = some e → FirstAbandonInv e) →
      ∀ q e, aget (acd.foldl (processAbandonRecord now) m) q = some e →
        FirstAbandonInv e := by
  intro acd
  induction acd with
  | nil => intro m hm; simpa using hm
  | cons r rs ih =>
    intro m hm
    rw [List.foldl_cons]
    exact ih _ (processAbandon_inv now m r hm)

/-- C8: after abandon detection over any inbound log, every aggregate
records as first-abandon timestamp the minimum of its event timestamps
(membership plus lower bound), with the business date derived from exactly
that timestamp — independent of input order. -/
theorem C8_first_abandon_min (now : Int) (acd : List InRecord) (p : String)
    (d : PhoneData)
    (h : aget (extract_abandon_phone_numbers now acd) p = some d) :
    d.first_abandon_time ∈ d.abandon_calls.map AbandonEvent.call_time ∧
    (∀ u ∈ d.abandon_calls.map AbandonEvent.call_time,
      d.first_abandon_time ≤ u) ∧
    d.first_abandon_business_date =
      convert_to_business_date d.first_abandon_time := by
  have := extract_inv_aux now acd []
    (by intro q e he; simp [aget] at he) p d h
  exact this

/-- C8 witness: two out-of-order abandon events for one phone (the later
business day first); the aggregate keeps the earlier moment and bounds the
later one. -/
theorem C8_first_abandon_min_witness :
    ((aget (extract_abandon_phone_numbers 1000000000
        [sampleIn "5551234567" "HUNGUP" "00:00:45" (some 999172800) "",
         sampleIn "5551234567" "HUNGUP" "00:00:45" (some 999000000) ""])
        "5551234567").getD phone_default).first_abandon_time ∈
      ((aget (extract_abandon_phone_numbers 1000000000
        [sampleIn "5551234567" "HUNGUP" "00:00:45" (some 999172800) "",
         sampleIn "5551234567" "HUNGUP" "00:00:45" (some 999000000) ""])
        "5551234567").getD phone_default).abandon_calls.map
        AbandonEvent.call_time ∧
    ((aget (extract_abandon_phone_numbers 1000000000
        [sampleIn "5551234567" "HUNGUP" "00:00:45" (some 999172800) "",
         sampleIn "5551234567" "HUNGUP" "00:00:45" (some 999000000) ""])
        "5551234567").getD phone_default).first_abandon_time ≤ 999172800 :=
  ⟨(C8_first_abandon_min 1000000000
      [sampleIn "5551234567" "HUNGUP" "00:00:45" (some 999172800) "",
       sampleIn "5551234567" "HUNGUP" "00:00:45" (some 999000000) ""]
      "5551234567" _ (by decide)).1,
   (C8_first_abandon_min 1000000000
      [sampleIn "5551234567" "HUNGUP" "00:00:45" (some 999172800) "",
       sampleIn "5551234567" "HUNGUP" "00:00:45" (some 999000000) ""]
      "5551234567" _ (by decide)).2.1 999172800 (by decide)⟩

/-! ### C2 and C1: the recovery search -/

theorem inStep_success (now : Int) (phone : String) (fa : Int)
    (d : PhoneData) (r : InRecord)
    (h : isInSuccess now phone fa r = true) :
    inStep now phone fa d r =
      ({ d with
          recovery_call := some (mkInRecovery (parsed_recovery_time now r) r)
          recovery_status := some "RECOVERED" }, true) := by
  unfold isInSuccess at h
  rcases hvt : validate_timestamp now r.call_time with _ | t
  · rw [hvt] at h
    simp at h
  · rw [hvt] at h
    simp only [Bool.and_eq_true, decide_eq_true_eq] at h
    obtain ⟨⟨h1, h2⟩, h3, h4⟩ := h
    unfold inStep
    rw [if_pos ⟨h1, h2⟩, hvt]
    simp only [if_pos h3, if_pos h4]
    unfold parsed_recovery_time
    rw [hvt]
    rfl

theorem inStep_fail (now : Int) (phone : String) (fa : Int)
    (d : PhoneData) (r : InRecord)
    (h : isInSuccess now phone fa r = false) :
    (inStep now phone fa d r).2 = false := by
  unfold inStep
  by_cases h1 : validate_phone_number r.phone = some phone ∧
      r.answered_hungup = "ANSWERED"
  · rw [if_pos h1]
    rcases hvt : validate_timestamp now r.call_time with _ | t
    · rfl
    · by_cases h3 : fa < t
      · by_cases h4 : r.disposition ∈ successful_dispositions
        · exfalso
          unfold isInSuccess at h
          rw [hvt] at h
          simp [h1.1, h1.2, h3, h4] at h
        · by_cases h5 : d.recovery_call = none
          · simp [h3, h4, h5]
          · simp [h3, h4, h5]
      · simp [h3]
  · rw [if_neg h1]

theorem scanInbound_cons (now : Int) (phone : String) (fa : Int)
    (d : PhoneData) (r : InRecord) (rs : List InRecord) :
    scanInbound now phone fa d (r :: rs) =
      if (inStep now phone fa d r).2 then inStep now phone fa d r
      else scanInbound now phone fa (inStep now phone fa d r).1 rs := rfl

theorem scanInbound_no_success (now : Int) (phone : String) (fa : Int)
    (xs : List InRecord)
    (h : ∀ a ∈ xs, isInSuccess now phone fa a = false) :
    ∀ d, (scanInbound now phone fa d xs).2 = false ∧
      ∀ ys, scanInbound now phone fa d (xs ++ ys) =
        scanInbound now phone fa (scanInbound now phone fa d xs).1 ys := by
  induction xs with
  | nil => exact fun d => ⟨rfl, fun ys => rfl⟩
  | cons r rs ih =>
    intro d
    have hr := h r (List.mem_cons_self _ _)
    have hrs := ih (fun a ha => h a (List.mem_cons_of_mem _ ha))
    have hstep := inStep_fail now phone fa d r hr
    constructor
    · rw [scanInbound_cons, hstep]
      simp only [Bool.false_eq_true, if_false]
      exact (hrs _).1
    · intro ys
      rw [List.cons_append, scanInbound_cons, hstep]
      simp only [Bool.false_eq_true, if_false]
      rw [(hrs _).2 ys, scanInbound_cons, hstep]
      simp only [Bool.false_eq_true, if_false]

theorem outStep_success (now : Int) (phone : String) (fa : Int)
    (d : PhoneData) (r : OutRecord)
    (h : isOutSuccess now phone fa r = true) :
    outStep now phone fa d r =
      ({ d with
          recovery_call :=
            some (mkOutRecovery (parsed_out_recovery_time now r) r)
          recovery_status := some "RECOVERED" }, true) := by
  unfold isOutSuccess at h
  rcases hvt : validate_timestamp now r.call_time with _ | t
  · rw [hvt] at h
    simp at h
  · rw [hvt] at h
    simp only [Bool.and_eq_true, decide_eq_true_eq] at h
    obtain ⟨⟨⟨h1, h2⟩, h2a⟩, h3, h4⟩ := h
    unfold outStep
    rw [if_pos ⟨h1, h2, h2a⟩, hvt]
    simp only [if_pos h3, if_pos h4]
    unfold parsed_out_recovery_time
    rw [hvt]
    rfl

theorem outStep_fail (now : Int) (phone : String) (fa : Int)
    (d : PhoneData) (r : OutRecord)
    (h : isOutSuccess now phone fa r = false) :
    (outStep now phone fa d r).2 = false := by
  unfold outStep
  by_cases h1 : validate_phone_number r.phone = some phone ∧
      r.call_type = "outbound.manual.dial" ∧
      r.system_disposition = "CONNECTED"
  · rw [if_pos h1]
    rcases hvt : validate_timestamp now r.call_time with _ | t
    · rfl
    · by_cases h3 : fa < t
      · by_cases h4 : r.disposition ∈ successful_dispositions
        · exfalso
          unfold isOutSuccess at h
          rw [hvt] at h
          simp [h1.1, h1.2.1, h1.2.2, h3, h4] at h
        · by_cases h5 : d.recovery_call = none
          · simp [h3, h4, h5]
          · simp [h3, h4, h5]
      · simp [h3]
  · rw [if_neg h1]

theorem scanOutbound_cons (now : Int) (phone : String) (fa : Int)
    (d : PhoneData) (r : OutRecord) (rs : List OutRecord) :
    scanOutbound now phone fa d (r :: rs) =
      if (outStep now phone fa d r).2 then outStep now phone fa d r
      else scanOutbound now phone fa (outStep now phone fa d r).1 rs := rfl

theorem scanOutbound_no_success (now : Int) (phone : String) (fa : Int)
    (xs : List OutRecord)
    (h : ∀ a ∈ xs, isOutSuccess now phone fa a = false) :
    ∀ d, (scanOutbound now phone fa d xs).2 = false ∧
      ∀ ys, scanOutbound now phone fa d (xs ++ ys) =
        scanOutbound now phone fa (scanOutbound now phone fa d xs).1 ys := by
  induction xs with
  | nil => exact fun d => ⟨rfl, fun ys => rfl⟩
  | cons r rs ih =>
    intro d
    have hr := h r (List.mem_cons_self _ _)
    have hrs := ih (fun a ha => h a (List.mem_cons_of_mem _ ha))
    have hstep := outStep_fail now phone fa d r hr
    constructor
    · rw [scanOutbound_cons, hstep]
      simp only [Bool.false_eq_true, if_false]
      exact (hrs _).1
    · intro ys
      rw [List.cons_append, scanOutbound_cons, hstep]
      simp only [Bool.false_eq_true, if_false]
      rw [(hrs _).2 ys, scanOutbound_cons, hstep]
      simp only [Bool.false_eq_true, if_false]

/-- C2: the recovery search is ordered and short-circuiting.  First part:
with a successful inbound candidate `r` preceded only by non-successful
inbound records, the search ends with status RECOVERED and exactly that
candidate as the single recorded RecoveryAttempt, regardless of the rest of
the inbound log and of the whole outbound log (the scan stops and the
outbound log is never consulted).  Second part: without any successful
inbound candidate, the first successful outbound candidate is recorded the
same way, regardless of the remaining outbound records. -/
theorem C2_recovery_search (now : Int) (phone : String) (d : PhoneData) :
    (∀ (as bs : List InRecord) (outs : List OutRecord) (r : InRecord),
      isInSuccess now phone d.first_abandon_time r = true →
      (∀ a ∈ as, isInSuccess now phone d.first_abandon_time a = false) →
      recoverPhone now (as ++ r :: bs) outs phone d =
        { (scanInbound now phone d.first_abandon_time d as).1 with
          recovery_call :=
            some (mkInRecovery (parsed_recovery_time now r) r)
          recovery_status := some "RECOVERED" }) ∧
    (∀ (ins : List InRecord) (os1 os2 : List OutRecord) (o : OutRecord),
      (∀ a ∈ ins, isInSuccess now phone d.first_abandon_time a = false) →
      isOutSuccess now phone d.first_abandon_time o = true →
      (∀ x ∈ os1, isOutSuccess now phone d.first_abandon_time x = false) →
      recoverPhone now ins (os1 ++ o :: os2) phone d =
        { (scanOutbound now phone d.first_abandon_time
            (scanInbound now phone d.first_abandon_time d ins).1 os1).1 with
          recovery_call :=
            some (mkOutRecovery (parsed_out_recovery_time now o) o)
          recovery_status := some "RECOVERED" }) := by
  constructor
  · intro as bs outs r hr has
    have hsp := scanInbound_no_success now phone d.first_abandon_time as has d
    have hscan : scanInbound now phone d.first_abandon_time d
        (as ++ r :: bs) =
        ({ (scanInbound now phone d.first_abandon_time d as).1 with
            recovery_call :=
              some (mkInRecovery (parsed_recovery_time now r) r)
            recovery_status := some "RECOVERED" }, true) := by
      rw [hsp.2 (r :: bs), scanInbound_cons, inStep_success _ _ _ _ _ hr]
      simp
    have hafter : afterScans now (as ++ r :: bs) outs phone d =
        ({ (scanInbound now phone d.first_abandon_time d as).1 with
            recovery_call :=
              some (mkInRecovery (parsed_recovery_time now r) r)
            recovery_status := some "RECOVERED" }, true) := by
      unfold afterScans
      rw [hscan]
      simp
    unfold recoverPhone
    rw [hafter]
    rfl
  · intro ins os1 os2 o hins ho hos1
    have hsp := scanInbound_no_success now phone d.first_abandon_time ins
      hins d
    have hosp := scanOutbound_no_success now phone d.first_abandon_time os1
      hos1 (scanInbound now phone d.first_abandon_time d ins).1
    have hscan : scanOutbound now phone d.first_abandon_time
        (scanInbound now phone d.first_abandon_time d ins).1
        (os1 ++ o :: os2) =
        ({ (scanOutbound now phone d.first_abandon_time
              (scanInbound now phone d.first_abandon_time d ins).1 os1).1 with
            recovery_call :=
              some (mkOutRecovery (parsed_out_recovery_time now o) o)
            recovery_status := some "RECOVERED" }, true) := by
      rw [hosp.2 (o :: os2), scanOutbound_cons, outStep_success _ _ _ _ _ ho]
      simp
    have hne : (os1 ++ o :: os2) ≠ [] := by simp
    have hafter : afterScans now ins (os1 ++ o :: os2) phone d =
        ({ (scanOutbound now phone d.first_abandon_time
              (scanInbound now phone d.first_abandon_time d ins).1 os1).1 with
            recovery_call :=
              some (mkOutRecovery (parsed_out_recovery_time now o) o)
            recovery_status := some "RECOVERED" }, true) := by
      unfold afterScans
      rw [if_pos ⟨hsp.1, hne⟩, hscan]
    unfold recoverPhone
    rw [hafter]
    rfl

/-- C2 witness: an aggregate with first abandon at a fixed moment, one
successful inbound ANSWERED record with disposition MI one hour later, an
empty prefix and empty remainders. -/
theorem C2_recovery_search_witness :
    recoverPhone 1000000000
      [sampleIn "5551234567" "ANSWERED" "" (some 999003600) "MI"] []
      "5551234567" { phone_default with first_abandon_time := 999000000 } =
      { (scanInbound 1000000000 "5551234567" 999000000
          { phone_default with first_abandon_time := 999000000 } []).1 with
        recovery_call :=
          some (mkInRecovery
            (parsed_recovery_time 1000000000
              (sampleIn "5551234567" "ANSWERED" "" (some 999003600) "MI"))
            (sampleIn "5551234567" "ANSWERED" "" (some 999003600) "MI"))
        recovery_status := some "RECOVERED" } :=
  (C2_recovery_search 1000000000 "5551234567"
      { phone_default with first_abandon_time := 999000000 }).1 [] [] []
    (sampleIn "5551234567" "ANSWERED" "" (some 999003600) "MI")
    (by decide) (by decide)

/-- C1: evaluation of the recovery stage at a phone that abandons and is
then reached by a non-successful inbound attempt.  The code records the
attempt (recovery_call is present) but its final status is NEEDS_OUTBOUND:
the unconditional overwrite at source lines 334-336 erases the ATTEMPTED
status whenever no successful recovery was found. -/
theorem C1_attempt_overwritten_eval :
    (aget (pipeline_aggregates 1000000000
        [sampleIn "5551234567" "HUNGUP" "00:00:45" (some 999000000) "",
         sampleIn "5551234567" "ANSWERED" "" (some 999003600)
           "General Enquiry"] [])
      "5551234567").map
      (fun d => (d.recovery_status, d.recovery_call.isSome)) =
    some (some "NEEDS_OUTBOUND", true) := by decide

/-! ### C5: abandonment-rate bounds -/

theorem countP_imp_le {α : Type} (l : List α) (p q : α → Bool)
    (h : ∀ a ∈ l, p a = true → q a = true) : l.countP p ≤ l.countP q := by
  induction l with
  | nil => simp
  | cons r rs ih =>
    have hr := h r (List.mem_cons_self _ _)
    have ihr := ih (fun a ha => h a (List.mem_cons_of_mem _ ha))
    rw [List.countP_cons, List.countP_cons]
    by_cases hp : p r = true
    · rw [hp, hr hp]
      omega
    · have hp2 : p r = false := by
        simp only [Bool.not_eq_true] at hp
        exact hp
      rw [hp2]
      simp only [Bool.false_eq_true, if_false]
      by_cases hq : q r = true
      · rw [hq]
        omega
      · have hq2 : q r = false := by
          simp only [Bool.not_eq_true] at hq
          exact hq
        rw [hq2]
        simp only [Bool.false_eq_true, if_false]
        omega

theorem inStep_total (now : Int) (phone : String) (fa : Int) (d : PhoneData)
    (r : InRecord) :
    ((inStep now phone fa d r).1).total_abandon_calls =
      d.total_abandon_calls := by
  unfold inStep
  by_cases h1 : validate_phone_number r.phone = some phone ∧
      r.answered_hungup = "ANSWERED"
  · rw [if_pos h1]
    rcases hvt : validate_timestamp now r.call_time with _ | t
    · rfl
    · by_cases h3 : fa < t
      · by_cases h4 : r.disposition ∈ successful_dispositions
        · simp [h3, h4]
        · by_cases h5 : d.recovery_call = none
          · simp [h3, h4, h5]
          · simp [h3, h4, h5]
      · simp [h3]
  · rw [if_neg h1]

theorem outStep_total (now : Int) (phone : String) (fa : Int) (d : PhoneData)
    (r : OutRecord) :
    ((outStep now phone fa d r).1).total_abandon_calls =
      d.total_abandon_calls := by
  unfold outStep
  by_cases h1 : validate_phone_number r.phone = some phone ∧
      r.call_type = "outbound.manual.dial" ∧
      r.system_disposition = "CONNECTED"
  · rw [if_pos h1]
    rcases hvt : validate_timestamp now r.call_time with _ | t
    · rfl
    · by_cases h3 : fa < t
      · by_cases h4 : r.disposition ∈ successful_dispositions
        · simp [h3, h4]
        · by_cases h5 : d.recovery_call = none
          · simp [h3, h4, h5]
          · simp [h3, h4, h5]
      · simp [h3]
  · rw [if_neg h1]

theorem scanInbound_total (now : Int) (phone : String) (fa : Int) :
    ∀ (rs : List InRecord) (d : PhoneData),
      ((scanInbound now phone fa d rs).1).total_abandon_calls =
        d.total_abandon_calls := by
  intro rs
  induction rs with
  | nil => intro d; rfl
  | cons r rs ih =>
    intro d
    rw [scanInbound_cons]
    cases hs : (inStep now phone fa d r).2
    · simp only [hs, Bool.false_eq_true, if_false]
      rw [ih]
      exact inStep_total now phone fa d r
    · simp only [hs, if_true]
      exact inStep_total now phone fa d r

theorem scanOutbound_total (now : Int) (phone : String) (fa : Int) :
    ∀ (rs : List OutRecord) (d : PhoneData),
      ((scanOutbound now phone fa d rs).1).total_abandon_calls =
        d.total_abandon_calls := by
  intro rs
  induction rs with
  | nil => intro d; rfl
  | cons r rs ih =>
    intro d
    rw [scanOutbound_cons]
    cases hs : (outStep now phone fa d r).2
    · simp only [hs, Bool.false_eq_true, if_false]
      rw [ih]
      exact outStep_total now phone fa d r
    · simp only [hs, if_true]
      exact outStep_total now phone fa d r

theorem afterScans_total (now : Int) (acd : List InRecord)
    (calls : List OutRecord) (phone : String) (d : PhoneData) :
    ((afterScans now acd calls phone d).1).total_abandon_calls =
      d.total_abandon_calls := by
  unfold afterScans
  by_cases hc : (scanInbound now phone d.first_abandon_time d acd).2 = false ∧
      calls ≠ []
  · rw [if_pos hc, scanOutbound_total, scanInbound_total]
  · rw [if_neg hc, scanInbound_total]

theorem recoverPhone_total (now : Int) (acd : List InRecord)
    (calls : List OutRecord) (phone : String) (d : PhoneData) :
    (recoverPhone now acd calls phone d).total_abandon_calls =
      d.total_abandon_calls := by
  unfold recoverPhone
  cases hs : (afterScans now acd calls phone d).2
  · simp only [hs, Bool.false_eq_true, if_false]
    exact afterScans_total now acd calls phone d
  · simp only [hs, if_true]
    exact afterScans_total now acd calls phone d

theorem sum_totals_find (now : Int) (apd : List (String × PhoneData))
    (acd : List InRecord) (calls : List OutRecord) :
    sum_totals (find_recovery_calls now apd acd calls) = sum_totals apd := by
  unfold find_recovery_calls
  induction apd with
  | nil => rfl
  | cons e m ih =>
    rw [List.map_cons]
    show (recoverPhone now acd calls e.1 e.2).total_abandon_calls +
      sum_totals (m.map fun e => (e.1, recoverPhone now acd calls e.1 e.2)) =
      e.2.total_abandon_calls + sum_totals m
    rw [recoverPhone_total, ih]

theorem sum_totals_aset_none (m : List (String × PhoneData)) (p : String)
    (d : PhoneData) (h : aget m p = none) :
    sum_totals (aset m p d) = sum_totals m + d.total_abandon_calls := by
  induction m with
  | nil => simp [aset, sum_totals]
  | cons e m ih =>
    by_cases he : e.1 = p
    · simp [aget, he] at h
    · simp only [aget, he, if_false] at h
      have ha : aset (e :: m) p d = e :: aset m p d := by
        simp [aset, he]
      rw [ha]
      show e.2.total_abandon_calls + sum_totals (aset m p d) =
        e.2.total_abandon_calls + sum_totals m + d.total_abandon_calls
      rw [ih h]
      omega

theorem sum_totals_aset_bump (m : List (String × PhoneData)) (p : String)
    (d0 d : PhoneData) (h : aget m p = some d0)
    (hd : d.total_abandon_calls = d0.total_abandon_calls + 1) :
    sum_totals (aset m p d) = sum_totals m + 1 := by
  induction m with
  | nil => simp [aget] at h
  | cons e m ih =>
    by_cases he : e.1 = p
    · simp only [aget, he, if_true, Option.some.injEq] at h
      have ha : aset (e :: m) p d = (p, d) :: m := by
        simp [aset, he]
      rw [ha]
      show d.total_abandon_calls + sum_totals m =
        e.2.total_abandon_calls + sum_totals m + 1
      rw [hd, ← h]
      omega
    · simp only [aget, he, if_false] at h
      have ha : aset (e :: m) p d = e :: aset m p d := by
        simp [aset, he]
      rw [ha]
      show e.2.total_abandon_calls + sum_totals (aset m p d) =
        e.2.total_abandon_calls + sum_totals m + 1
      rw [ih h]
      omega

theorem sum_totals_process (now : Int) (m : List (String × PhoneData))
    (r : InRecord) :
    sum_totals (processAbandonRecord now m r) =
      sum_totals m + (if is_counted_abandon now r then 1 else 0) := by
  rcases hvp : validate_phone_number r.phone with _ | p
  · rw [process_skip_phone now m r hvp]
    have hc : is_counted_abandon now r = false := by
      simp [is_counted_abandon, hvp]
    rw [hc]
    simp
  rcases hvt : validate_timestamp now r.call_time with _ | t
  · rw [process_skip_ts now m r p hvp hvt]
    have hc : is_counted_abandon now r = false := by
      simp [is_counted_abandon, hvt]
    rw [hc]
    simp
  by_cases hcond : r.answered_hungup = "HUNGUP" ∧
      27 < time_to_seconds r.wait_time
  · rw [process_abandon now m r p t hvp hvt hcond]
    have hc : is_counted_abandon now r = true := by
      simp [is_counted_abandon, hvp, hvt, hcond.1, hcond.2]
    rw [hc]
    rcases hd0 : aget m p with _ | d0
    · rw [sum_totals_aset_none m p _ hd0, updatedAggregate_total]
      have hb : baseAggregate m p t r = freshAggregate p t r := by
        unfold baseAggregate
        rw [hd0]
      rw [hb]
      rfl
    · refine sum_totals_aset_bump m p d0 _ hd0 ?_
      rw [updatedAggregate_total]
      unfold baseAggregate
      rw [hd0]
  · rw [process_not_abandon now m r p t hvp hvt hcond]
    have hc : is_counted_abandon now r = false := by
      unfold is_counted_abandon
      rw [hvp, hvt]
      by_cases hf : r.answered_hungup = "HUNGUP"
      · have hw : ¬ 27 < time_to_seconds r.wait_time :=
          fun hw => hcond ⟨hf, hw⟩
        simp [hf, hw]
      · simp [hf]
    rw [hc]
    simp

theorem sum_totals_extract_aux (now : Int) :
    ∀ (acd : List InRecord) (m : List (String × PhoneData)),
      sum_totals (acd.foldl (processAbandonRecord now) m) =
        sum_totals m + acd.countP (is_counted_abandon now) := by
  intro acd
  induction acd with
  | nil => intro m; simp
  | cons r rs ih =>
    intro m
    rw [List.foldl_cons, ih, sum_totals_process, List.countP_cons]
    omega

theorem sum_totals_extract (now : Int) (acd : List InRecord) :
    sum_totals (extract_abandon_phone_numbers now acd) =
      acd.countP (is_counted_abandon now) := by
  unfold extract_abandon_phone_numbers
  rw [sum_totals_extract_aux]
  simp [sum_totals]

theorem recovered_foldl_le (apd : List (String × PhoneData)) :
    ∀ n : Nat,
      apd.foldl
        (fun n e =>
          if e.2.recovery_status = some "RECOVERED" then
            n + e.2.total_abandon_calls
          else n) n ≤ n + sum_totals apd := by
  induction apd with
  | nil => intro n; simp [sum_totals]
  | cons e m ih =>
    intro n
    rw [List.foldl_cons]
    refine le_trans (ih _) ?_
    show (if e.2.recovery_status = some "RECOVERED" then
        n + e.2.total_abandon_calls else n) + sum_totals m ≤
      n + (e.2.total_abandon_calls + sum_totals m)
    by_cases hc : e.2.recovery_status = some "RECOVERED"
    · rw [if_pos hc]
      omega
    · rw [if_neg hc]
      omega

theorem recovered_le_sum (apd : List (String × PhoneData)) :
    recovered_abandon_calls apd ≤ sum_totals apd := by
  have h := recovered_foldl_le apd 0
  simpa [recovered_abandon_calls] using h

theorem roundRate_bounds (q : ℚ) (h0 : 0 ≤ q) (h1 : q ≤ 100) :
    0 ≤ roundRate q ∧ roundRate q ≤ 100 := by
  have hq0 : (0 : ℚ) ≤ q * 10 := by nlinarith
  have hq1 : q * 10 ≤ 1000 := by nlinarith
  have hlow : (-1 : ℚ) < ((round (q * 10) : ℤ) : ℚ) := by
    have := sub_half_lt_round (q * 10)
    linarith
  have hlow2 : (-1 : ℤ) < round (q * 10) := by exact_mod_cast hlow
  have hhigh : ((round (q * 10) : ℤ) : ℚ) < 1001 := by
    have := round_le_add_half (q * 10)
    linarith
  have hhigh2 : round (q * 10) < 1001 := by exact_mod_cast hhigh
  constructor
  · unfold roundRate
    have : (0 : ℚ) ≤ ((round (q * 10) : ℤ) : ℚ) := by
      have : (0 : ℤ) ≤ round (q * 10) := by omega
      exact_mod_cast this
    positivity
  · unfold roundRate
    rw [div_le_iff₀ (by norm_num : (0 : ℚ) < 10)]
    have : round (q * 10) ≤ 1000 := by omega
    have hc : ((round (q * 10) : ℤ) : ℚ) ≤ 1000 := by exact_mod_cast this
    linarith

/-- C5: over the aggregates produced by the abandon-detection and recovery
stages on the same inbound log, the computed abandonment rate always lies
between 0 and 100 inclusive, and it equals 0 when there is no valid
call. -/
theorem C5_rate_bounds (now : Int) (acd : List InRecord)
    (calls : List OutRecord) :
    (0 ≤ calculate_corrected_abandonment_rate acd
        (pipeline_aggregates now acd calls) ∧
      calculate_corrected_abandonment_rate acd
        (pipeline_aggregates now acd calls) ≤ 100) ∧
    (count_valid_calls acd = 0 →
      calculate_corrected_abandonment_rate acd
        (pipeline_aggregates now acd calls) = 0) := by
  have hsum : sum_totals (pipeline_aggregates now acd calls) =
      acd.countP (is_counted_abandon now) := by
    unfold pipeline_aggregates
    rw [sum_totals_find, sum_totals_extract]
  have hR : recovered_abandon_calls (pipeline_aggregates now acd calls) ≤
      count_abandon_calls acd := by
    refine le_trans (recovered_le_sum _) ?_
    rw [hsum]
    unfold count_abandon_calls
    refine countP_imp_le acd _ _ ?_
    intro a _ ha
    unfold is_counted_abandon at ha
    unfold is_abandon_row
    simp only [Bool.and_eq_true] at ha ⊢
    exact ⟨⟨ha.1.1.1, ha.1.2⟩, ha.2⟩
  have hA : count_abandon_calls acd ≤ count_valid_calls acd := by
    unfold count_abandon_calls count_valid_calls
    refine countP_imp_le acd _ _ ?_
    intro a _ ha
    unfold is_abandon_row at ha
    simp only [Bool.and_eq_true] at ha
    exact ha.1.1
  constructor
  · unfold calculate_corrected_abandonment_rate
    by_cases hv : 0 < count_valid_calls acd
    · rw [if_pos hv]
      apply roundRate_bounds
      · have hV : (0 : ℚ) < (count_valid_calls acd : ℚ) := by
          exact_mod_cast hv
        have hRQ : ((recovered_abandon_calls
            (pipeline_aggregates now acd calls) : ℚ)) ≤
            (count_abandon_calls acd : ℚ) := by exact_mod_cast hR
        have hnum : (0 : ℚ) ≤ (count_abandon_calls acd : ℚ) -
            (recovered_abandon_calls (pipeline_aggregates now acd calls) : ℚ) := by
          linarith
        positivity
      · have hV : (0 : ℚ) < (count_valid_calls acd : ℚ) := by
          exact_mod_cast hv
        have hRQ : (0 : ℚ) ≤ (recovered_abandon_calls
            (pipeline_aggregates now acd calls) : ℚ) := by positivity
        have hAQ : (count_abandon_calls acd : ℚ) ≤
            (count_valid_calls acd : ℚ) := by exact_mod_cast hA
        rw [div_mul_eq_mul_div, div_le_iff₀ hV]
        nlinarith
    · rw [if_neg hv]
      norm_num
  · intro h0
    unfold calculate_corrected_abandonment_rate
    rw [if_neg (by omega)]

/-- C5 witness: the bounds at a one-abandon log without recovery, and the
zero rate at the empty log. -/
theorem C5_rate_bounds_witness :
    (0 ≤ calculate_corrected_abandonment_rate
        [sampleIn "5551234567" "HUNGUP" "00:00:45" (some 999000000) ""]
        (pipeline_aggregates 1000000000
          [sampleIn "5551234567" "HUNGUP" "00:00:45" (some 999000000) ""]
          []) ∧
      calculate_corrected_abandonment_rate
        [sampleIn "5551234567" "HUNGUP" "00:00:45" (some 999000000) ""]
        (pipeline_aggregates 1000000000
          [sampleIn "5551234567" "HUNGUP" "00:00:45" (some 999000000) ""]
          []) ≤ 100) ∧
    calculate_corrected_abandonment_rate []
      (pipeline_aggregates 1000000000 [] []) = 0 :=
  ⟨(C5_rate_bounds 1000000000
      [sampleIn "5551234567" "HUNGUP" "00:00:45" (some 999000000) ""] []).1,
   (C5_rate_bounds 1000000000 [] []).2 (by decide)⟩

/-! ### C9: daily attribution of abandoning phones -/

theorem combineB_nil (o : Option DayPhones) : combineB o [] = o := by
  cases o with
  | none => rfl
  | some dp => simp [combineB]

theorem pbd_fold (l : List (String × PhoneData)) :
    ∀ (acc : List (Int × DayPhones)) (dt : Int),
      aget (List.foldl pbdStep acc l) dt =
        combineB (aget acc dt) (bucketOf l dt) := by
  induction l with
  | nil =>
    intro acc dt
    rw [List.foldl_nil]
    have hb : bucketOf ([] : List (String × PhoneData)) dt = [] := rfl
    rw [hb, combineB_nil]
  | cons e l ih =>
    intro acc dt
    rw [List.foldl_cons, ih]
    by_cases hbd : e.2.first_abandon_business_date = dt
    · have hb : bucketOf (e :: l) dt = e :: bucketOf l dt := by
        simp [bucketOf, hbd]
      rw [hb]
      rcases hacc : aget acc e.2.first_abandon_business_date with _ | dp
      · have hstep : pbdStep acc e =
            aset acc e.2.first_abandon_business_date
              { phones := [e.1]
                recovered :=
                  if e.2.recovery_status = some "RECOVERED" then 1 else 0 } := by
          simp [pbdStep, hacc]
        rw [hstep, hbd]
        rw [hbd] at hacc
        rw [aget_aset_self, hacc]
        simp [combineB, List.countP_cons]
        omega
      · have hstep : pbdStep acc e =
            aset acc e.2.first_abandon_business_date
              { phones := dp.phones ++ [e.1]
                recovered := dp.recovered +
                  (if e.2.recovery_status = some "RECOVERED" then 1 else 0) } := by
          simp [pbdStep, hacc]
        rw [hstep, hbd]
        rw [hbd] at hacc
        rw [aget_aset_self, hacc]
        simp [combineB, List.countP_cons]
        omega
    · have hb : bucketOf (e :: l) dt = bucketOf l dt := by
        simp [bucketOf, hbd]
      rw [hb]
      rcases hacc : aget acc e.2.first_abandon_business_date with _ | dp
      · have hstep : pbdStep acc e =
            aset acc e.2.first_abandon_business_date
              { phones := [e.1]
                recovered :=
                  if e.2.recovery_status = some "RECOVERED" then 1 else 0 } := by
          simp [pbdStep, hacc]
        rw [hstep, aget_aset_ne _ _ _ _ hbd]
      · have hstep : pbdStep acc e =
            aset acc e.2.first_abandon_business_date
              { phones := dp.phones ++ [e.1]
                recovered := dp.recovered +
                  (if e.2.recovery_status = some "RECOVERED" then 1 else 0) } := by
          simp [pbdStep, hacc]
        rw [hstep, aget_aset_ne _ _ _ _ hbd]

theorem phones_by_date_spec (apd : List (String × PhoneData)) (dt : Int) :
    aget (phones_by_date apd) dt = combineB none (bucketOf apd dt) := by
  unfold phones_by_date
  rw [pbd_fold]
  rfl

theorem phones_of_bucket (apd : List (String × PhoneData)) (dt : Int)
    (dp : DayPhones) (h : aget (phones_by_date apd) dt = some dp) :
    dp.phones = (bucketOf apd dt).map Prod.fst := by
  rw [phones_by_date_spec] at h
  by_cases hbe : (bucketOf apd dt).isEmpty = true
  · simp only [combineB, hbe, if_true] at h
    exact absurd h (by simp)
  · simp only [combineB, hbe, Bool.false_eq_true, if_false,
      Option.some.injEq] at h
    rw [← h]

theorem count_key_filter (m : List (String × PhoneData)) (p : String)
    (d : PhoneData) (q : String × PhoneData → Bool)
    (hnd : (m.map Prod.fst).Nodup) (h : aget m p = some d) :
    ((m.filter q).map Prod.fst).count p =
      if q (p, d) = true then 1 else 0 := by
  induction m with
  | nil => simp [aget] at h
  | cons e m ih =>
    obtain ⟨a, b⟩ := e
    simp only [List.map_cons, List.nodup_cons] at hnd
    by_cases he : a = p
    · subst he
      simp [aget] at h
      subst h
      have hz0 : a ∉ (m.filter q).map Prod.fst := by
        intro hmem
        apply hnd.1
        obtain ⟨ee, hee, hex⟩ := List.mem_map.mp hmem
        rw [← hex]
        exact List.mem_map_of_mem Prod.fst (List.mem_of_mem_filter hee)
      by_cases hq : q (a, b) = true
      · simp [List.filter_cons, hq, List.count_cons,
          List.count_eq_zero.mpr hz0]
      · simp [List.filter_cons, hq, List.count_eq_zero.mpr hz0]
    · have h2 : aget m p = some d := by
        simpa [aget, he] using h
      have ihm := ih hnd.2 h2
      by_cases hq : q (a, b) = true
      · simp only [List.filter_cons, hq, if_true, List.map_cons,
          List.count_cons]
        have hbeq : (a == p) = false := by simp [he]
        rw [hbeq]
        simp only [Bool.false_eq_true, if_false]
        simpa using ihm
      · simp only [List.filter_cons, hq, Bool.false_eq_true, if_false]
        exact ihm

theorem process_keys_nodup (now : Int) (m : List (String × PhoneData))
    (r : InRecord) (h : (m.map Prod.fst).Nodup) :
    ((processAbandonRecord now m r).map Prod.fst).Nodup := by
  rcases hvp : validate_phone_number r.phone with _ | p
  · rw [process_skip_phone now m r hvp]
    exact h
  rcases hvt : validate_timestamp now r.call_time with _ | t
  · rw [process_skip_ts now m r p hvp hvt]
    exact h
  by_cases hcond : r.answered_hungup = "HUNGUP" ∧
      27 < time_to_seconds r.wait_time
  · rw [process_abandon now m r p t hvp hvt hcond]
    rcases hd0 : aget m p with _ | d0
    · rw [keys_aset_of_none m p _ hd0]
      have hnm := aget_none_not_mem_keys m p hd0
      simp [List.nodup_append, h, hnm]
    · rw [keys_aset_of_some m p _ d0 hd0]
      exact h
  · rw [process_not_abandon now m r p t hvp hvt hcond]
    exact h

theorem extract_keys_nodup (now : Int) (acd : List InRecord) :
    ((extract_abandon_phone_numbers now acd).map Prod.fst).Nodup := by
  unfold extract_abandon_phone_numbers
  suffices haux : ∀ (l : List InRecord) (m : List (String × PhoneData)),
      (m.map Prod.fst).Nodup →
      ((l.foldl (processAbandonRecord now) m).map Prod.fst).Nodup by
    exact haux acd [] (by simp)
  intro l
  induction l with
  | nil => exact fun m hm => hm
  | cons r rs ih =>
    intro m hm
    rw [List.foldl_cons]
    exact ih _ (process_keys_nodup now m r hm)

theorem keys_find_recovery (now : Int) (apd : List (String × PhoneData))
    (acd : List InRecord) (calls : List OutRecord) :
    (find_recovery_calls now apd acd calls).map Prod.fst =
      apd.map Prod.fst := by
  unfold find_recovery_calls
  induction apd with
  | nil => rfl
  | cons e m ih =>
    simp only [List.map_cons]
    rw [ih]

/-- C9: in the daily grouping built from the pipeline aggregates, every
abandoning phone appears in the bucket of exactly one business date — the
first-abandon business date of its aggregate — with multiplicity one, even
when its abandon events span several business dates. -/
theorem C9_daily_attribution (now : Int) (acd : List InRecord)
    (calls : List OutRecord) (p : String) (d : PhoneData)
    (h : aget (pipeline_aggregates now acd calls) p = some d) :
    (aget (phones_by_date (pipeline_aggregates now acd calls))
        d.first_abandon_business_date).isSome = true ∧
    ∀ dt dp,
      aget (phones_by_date (pipeline_aggregates now acd calls)) dt =
        some dp →
      dp.phones.count p =
        if dt = d.first_abandon_business_date then 1 else 0 := by
  have hnd : ((pipeline_aggregates now acd calls).map Prod.fst).Nodup := by
    unfold pipeline_aggregates
    rw [keys_find_recovery]
    exact extract_keys_nodup now acd
  have hmem : (p, d) ∈ pipeline_aggregates now acd calls := aget_mem _ _ _ h
  constructor
  · rw [phones_by_date_spec]
    rcases hb : bucketOf (pipeline_aggregates now acd calls)
        d.first_abandon_business_date with _ | ⟨x, xs⟩
    · exfalso
      have hin : (p, d) ∈ bucketOf (pipeline_aggregates now acd calls)
          d.first_abandon_business_date := by
        unfold bucketOf
        exact List.mem_filter.mpr ⟨hmem, by simp⟩
      rw [hb] at hin
      simp at hin
    · simp [combineB]
  · intro dt dp hdp
    have hcount := count_key_filter (pipeline_aggregates now acd calls) p d
      (fun e => decide (e.2.first_abandon_business_date = dt)) hnd h
    rw [phones_of_bucket _ _ _ hdp]
    unfold bucketOf
    rw [hcount]
    by_cases hdt : dt = d.first_abandon_business_date
    · simp [hdt]
    · have hdt2 : ¬ d.first_abandon_business_date = dt :=
        fun hh => hdt hh.symm
      simp [hdt, hdt2]

/-- C9 witness: the two-day repeat abandoner is attributed once, to the
bucket of the earlier business date. -/
theorem C9_daily_attribution_witness :
    (aget (phones_by_date c9_apd)
        c9_entry.first_abandon_business_date).isSome = true ∧
    c9_bucket.phones.count "5551234567" =
      if c9_entry.first_abandon_business_date =
          c9_entry.first_abandon_business_date then 1 else 0 :=
  ⟨(C9_daily_attribution 1000000000 c9_log [] "5551234567" c9_entry
      (by decide)).1,
   (C9_daily_attribution 1000000000 c9_log [] "5551234567" c9_entry
      (by decide)).2 c9_entry.first_abandon_business_date c9_bucket
      (by decide)⟩
